import Mathlib

/-!
Shallow embedding of `eg4_cv_emulator.py`, an EG4 Chargeverter battery
emulator acting as a Modbus RTU slave (slave id configurable, function
0x03 Read Holding Registers), together with theorems settling the spec
claims about it.

Bytes are modelled as `Nat` (with `< 256` hypotheses where relevant),
16-bit register values as `Nat` (with `< 2^16` hypotheses), and serial
timestamps (Python floats holding `time.time()` values) as `Rat`.
-/

namespace EG4

/-- Translation of `crc16_modbus`, lines 41-51: one inner-loop iteration
(`if crc & 1: crc = (crc >> 1) ^ 0xA001 else: crc >>= 1`). -/
def crcRound (crc : Nat) : Nat :=
  if crc &&& 1 = 1 then (crc >>> 1) ^^^ 0xA001 else crc >>> 1

/-- Translation of the body of the outer loop of `crc16_modbus`:
`crc ^= b` followed by 8 iterations of the inner loop. -/
def crcByte (crc b : Nat) : Nat :=
  crcRound^[8] (crc ^^^ b)

/-- Translation of `crc16_modbus` (lines 41-51): register seeded `0xFFFF`,
each data byte folded in by `crcByte`, final `& 0xFFFF`. -/
def crc16_modbus (data : List Nat) : Nat :=
  (data.foldl crcByte 0xFFFF) &&& 0xFFFF

/-- Translation of `regs_to_bytes` (lines 54-59): big-endian, two bytes
per register, appended in order to an output buffer. -/
def regs_to_bytes (regs : List Nat) : List Nat :=
  regs.foldl (fun out r => out ++ [(r >>> 8) &&& 0xFF, r &&& 0xFF]) []

/-- State of `GapFramer` (lines 62-67): configured idle gap in seconds,
receive buffer, timestamp of last non-empty receipt (`None` initially). -/
structure GapFramer where
  gap_s : Rat
  buf : List Nat
  last_rx : Option Rat
deriving DecidableEq, Repr

/-- `GapFramer.__init__` (lines 64-67): empty buffer, no last receipt. -/
def GapFramer.init (gap_s : Rat) : GapFramer :=
  { gap_s := gap_s, buf := [], last_rx := none }

/-- Translation of `GapFramer.feed` (lines 69-78): a non-empty chunk is
buffered and stamps `last_rx`; on an empty chunk, a non-empty buffer whose
last receipt is at least `gap_s` ago is emitted as a frame and cleared;
otherwise no frame. -/
def GapFramer.feed (g : GapFramer) (chunk : List Nat) (now : Rat) :
    Option (List Nat) × GapFramer :=
  if chunk ≠ [] then
    (none, { g with buf := g.buf ++ chunk, last_rx := some now })
  else
    match g.last_rx with
    | some t =>
        if g.buf ≠ [] ∧ g.gap_s ≤ now - t then
          (some g.buf, { g with buf := [] })
        else
          (none, g)
    | none => (none, g)

/-- Iterated feeding of a `GapFramer`, discarding emitted frames: the
state reached from `g` after the given sequence of `(chunk, now)` calls. -/
def GapFramer.feeds (g : GapFramer) (calls : List (List Nat × Rat)) : GapFramer :=
  calls.foldl (fun s p => (s.feed p.1 p.2).2) g

/-- Translation of `load_soc` (lines 81-88). The `try` block opens the
file, reads it, and parses `int(float(raw))`; all of that is fallible I/O
and string parsing, embedded as an `Option Int` argument: `some v` when
the read and parse succeed with integer value `v`, `none` when any step
raises (caught by the `except` clause, which returns `default`). The
success path clamps with `max(0, min(100, v))`. -/
def load_soc (parsed : Option Int) (default : Int) : Int :=
  match parsed with
  | some v => max 0 (min 100 v)
  | none => default

/-- The register map `base` built at lines 134-142: 0x27 = 39 zeroed
registers, with the seeded values and the two SOC cells (0x0015, 0x0018)
holding `default_soc`. -/
def baseInit (default_soc : Nat) : List Nat :=
  ((((((List.replicate 0x27 0).set 0x13 0x17).set 0x14 0x18).set
      0x15 default_soc).set 0x16 0x32).set 0x17 0x64).set 0x18 default_soc

/-- The `resp2 = resp + bytes([c & 0xFF, (c >> 8) & 0xFF])` pattern used
at lines 204-206, 218-220 and 236-238: append the CRC of `resp`, low byte
first. -/
def withCrc (resp : List Nat) : List Nat :=
  let c := crc16_modbus resp
  resp ++ [c &&& 0xFF, (c >>> 8) &&& 0xFF]

/-- Lines 227-233: copy `base[start:start+count]` and patch the live SOC
into offsets for addresses 0x0015 and 0x0018 when they fall in range
(`start <= addr < start + count`). The copy is patched; `base` is not. -/
def patchRegs (base : List Nat) (start count soc : Nat) : List Nat :=
  let regs := (base.drop start).take count
  let regs := if start ≤ 0x15 ∧ 0x15 < start + count then regs.set (0x15 - start) soc else regs
  if start ≤ 0x18 ∧ 0x18 < start + count then regs.set (0x18 - start) soc else regs

/-- Translation of the per-frame handling in `main` (lines 176-239),
from a completed frame `pkt` to the bytes written to the serial port
(`none` when nothing is written), paired with the register store after
handling (the code never mutates `base`; only the copy in `patchRegs` is
patched, so the store component is returned unchanged on every path):
short frames are dropped; the CRC trailer (`pkt[-2] | pkt[-1] << 8`) is
checked against the CRC of the body `pkt[:-2]`; frames for another slave
(`sid != args.slave & 0xFF`) are dropped; a non-0x03 function gets
exception 0x01; `start + count > len(base)` gets exception 0x02;
otherwise the normal read response is built. -/
def handle_frame (slave : Nat) (base : List Nat) (soc : Nat) (pkt : List Nat) :
    Option (List Nat) × List Nat :=
  if pkt.length < 8 then (none, base)
  else
    let body := pkt.take (pkt.length - 2)
    let want := pkt.getD (pkt.length - 2) 0 ||| (pkt.getD (pkt.length - 1) 0 <<< 8)
    let got := crc16_modbus body
    if got ≠ want then (none, base)
    else
      let sid := pkt.getD 0 0
      let func := pkt.getD 1 0
      if sid ≠ slave &&& 0xFF then (none, base)
      else if func ≠ 0x03 then
        (some (withCrc [sid, func ||| 0x80, 0x01]), base)
      else
        let start := (pkt.getD 2 0 <<< 8) ||| pkt.getD 3 0
        let count := (pkt.getD 4 0 <<< 8) ||| pkt.getD 5 0
        if start + count > base.length then
          (some (withCrc [sid, 0x83, 0x02]), base)
        else
          let payload := regs_to_bytes (patchRegs base start count soc)
          (some (withCrc ([sid, 0x03, payload.length] ++ payload)), base)

/-- Decoding of a response payload, from the spec's words: read the bytes
back as big-endian 16-bit values, two bytes per register, in order. -/
def bytesToRegs : List Nat → List Nat
  | hi :: lo :: rest => (hi * 256 + lo) :: bytesToRegs rest
  | _ => []

end EG4

namespace EG4

lemma feed_nonempty (g : GapFramer) (chunk : List Nat) (now : Rat) (hc : chunk ≠ []) :
    g.feed chunk now = (none, { g with buf := g.buf ++ chunk, last_rx := some now }) := by
  unfold GapFramer.feed
  simp [hc]

lemma feed_gap (g : GapFramer) (t now : Rat) (hrx : g.last_rx = some t)
    (hb : g.buf ≠ []) (hgap : g.gap_s ≤ now - t) :
    g.feed [] now = (some g.buf, { g with buf := [] }) := by
  unfold GapFramer.feed
  simp [hrx, hb, hgap]

lemma feed_emit {g : GapFramer} {chunk : List Nat} {now : Rat} {frame : List Nat}
    {g' : GapFramer} (h : g.feed chunk now = (some frame, g')) :
    g.buf ≠ [] ∧ frame = g.buf ∧ g'.buf = [] := by
  unfold GapFramer.feed at h
  split at h
  · simp at h
  · split at h
    · split at h
      · rename_i hcond
        simp only [Prod.mk.injEq, Option.some.injEq] at h
        exact ⟨hcond.1, h.1.symm, by rw [← h.2]⟩
      · simp at h
    · simp at h

lemma feed_inv {g : GapFramer} (hg : g.buf ≠ [] → g.last_rx ≠ none)
    (chunk : List Nat) (now : Rat) :
    (g.feed chunk now).2.buf ≠ [] → (g.feed chunk now).2.last_rx ≠ none := by
  unfold GapFramer.feed
  split
  · intro; simp
  · split
    · split
      · intro h; simp at h
      · exact hg
    · exact hg

lemma feeds_inv (calls : List (List Nat × Rat)) :
    ∀ g : GapFramer, (g.buf ≠ [] → g.last_rx ≠ none) →
      ((g.feeds calls).buf ≠ [] → (g.feeds calls).last_rx ≠ none) := by
  induction calls with
  | nil => intro g hg; exact hg
  | cons p rest ih =>
      intro g hg
      exact ih _ (feed_inv hg p.1 p.2)

/-- C3: `GapFramer.feed` appends a non-empty chunk to the buffer, stamps
the receipt time and returns no frame; on an empty chunk it returns the
buffered bytes as one frame and clears the buffer exactly when the buffer
is non-empty and the time since the last receipt reaches the gap
threshold, and returns no frame in every other case. Consequently two
gapless sub-chunks followed by a pause of at least the threshold yield one
frame equal to their concatenation, and no frame while the gap is below
the threshold. -/
theorem C3_frame_assembler :
    (∀ (g : GapFramer) (chunk : List Nat) (now : Rat), chunk ≠ [] →
      g.feed chunk now = (none, { g with buf := g.buf ++ chunk, last_rx := some now })) ∧
    (∀ (g : GapFramer) (t now : Rat), g.last_rx = some t → g.buf ≠ [] →
      g.gap_s ≤ now - t →
      g.feed [] now = (some g.buf, { g with buf := [] })) ∧
    (∀ (g : GapFramer) (now : Rat), g.buf = [] → (g.feed [] now).1 = none) ∧
    (∀ (g : GapFramer) (t now : Rat), g.last_rx = some t → now - t < g.gap_s →
      (g.feed [] now).1 = none) ∧
    (∀ (g : GapFramer) (now : Rat), g.last_rx = none → (g.feed [] now).1 = none) ∧
    (∀ (gap : Rat) (c1 c2 : List Nat) (t1 t2 t3 : Rat), c1 ≠ [] → c2 ≠ [] →
      gap ≤ t3 - t2 →
      ((((GapFramer.init gap).feed c1 t1).2.feed c2 t2).2.feed [] t3).1 =
        some (c1 ++ c2)) ∧
    (∀ (gap : Rat) (c1 c2 : List Nat) (t1 t2 t3 : Rat), c1 ≠ [] → c2 ≠ [] →
      t3 - t2 < gap →
      ((((GapFramer.init gap).feed c1 t1).2.feed c2 t2).2.feed [] t3).1 = none) := by
  refine ⟨feed_nonempty, feed_gap, ?_, ?_, ?_, ?_, ?_⟩
  · intro g now hb
    unfold GapFramer.feed
    simp [hb]
    split <;> simp [hb]
  · intro g t now hrx hlt
    unfold GapFramer.feed
    simp [hrx]
    rw [if_neg]
    rintro ⟨-, hge⟩
    exact absurd hlt (not_lt.2 hge)
  · intro g now hrx
    unfold GapFramer.feed
    simp [hrx]
  · intro gap c1 c2 t1 t2 t3 h1 h2 hgap
    rw [feed_nonempty _ _ _ h1, feed_nonempty _ _ _ h2]
    rw [feed_gap _ t2 t3 rfl (by simp [GapFramer.init, h1]) hgap]
    simp [GapFramer.init]
  · intro gap c1 c2 t1 t2 t3 h1 h2 hgap
    rw [feed_nonempty _ _ _ h1, feed_nonempty _ _ _ h2]
    unfold GapFramer.feed
    simp [GapFramer.init]
    rw [if_neg]
    rintro ⟨-, hge⟩
    exact absurd hgap (not_lt.2 hge)

theorem C3_witness :
    ((((GapFramer.init 1).feed [1] 0).2.feed [2] 1).2.feed [] 2).1 = some [1, 2] :=
  C3_frame_assembler.2.2.2.2.2.1 1 [1] [2] 0 1 2 (by simp) (by simp) (by norm_num)

/-- C10: in every state reachable from a fresh `GapFramer` a non-empty
buffer implies a recorded last-receipt time, so the gap comparison in
`feed` is never evaluated on an unset timestamp; and any call of `feed`
that emits a frame does so from a non-empty buffer, returns exactly that
buffer, and leaves the buffer empty. -/
theorem C10_reachable_invariant (gap : Rat) (calls : List (List Nat × Rat)) :
    (((GapFramer.init gap).feeds calls).buf ≠ [] →
      ((GapFramer.init gap).feeds calls).last_rx ≠ none) ∧
    (∀ (g : GapFramer) (chunk : List Nat) (now : Rat) (frame : List Nat)
      (g' : GapFramer), g.feed chunk now = (some frame, g') →
      g.buf ≠ [] ∧ frame = g.buf ∧ g'.buf = []) := by
  constructor
  · exact feeds_inv calls _ (by simp [GapFramer.init])
  · intro g chunk now frame g' h
    exact feed_emit h

theorem C10_witness :
    ((GapFramer.init 1).feeds [([5], 0)]).last_rx ≠ none ∧
    ((⟨1, [7], some 0⟩ : GapFramer).buf ≠ [] ∧ [7] = (⟨1, [7], some 0⟩ : GapFramer).buf ∧
      (⟨1, [], some 0⟩ : GapFramer).buf = []) := by
  constructor
  · exact (C10_reachable_invariant 1 [([5], 0)]).1
      (by simp [GapFramer.feeds, GapFramer.feed, GapFramer.init])
  · exact (C10_reachable_invariant 1 []).2 ⟨1, [7], some 0⟩ [] 5 [7] ⟨1, [], some 0⟩
      (by norm_num [GapFramer.feed])

end EG4

namespace EG4

set_option maxRecDepth 10000 in
/-- C1: the CRC engine applied to the reference poll body
`01 03 00 13 00 11` yields `0x0374`, transmitted low byte first as `0x74`
then `0x03`; the register is seeded `0xFFFF` (the CRC of the empty input
is `0xFFFF`), and each appended byte is folded in by XOR into the running
register followed by 8 shift-right rounds with conditional XOR of
`0xA001`. -/
theorem C1_crc_reference :
    crc16_modbus [0x01, 0x03, 0x00, 0x13, 0x00, 0x11] = 0x0374 ∧
    crc16_modbus [0x01, 0x03, 0x00, 0x13, 0x00, 0x11] &&& 0xFF = 0x74 ∧
    (crc16_modbus [0x01, 0x03, 0x00, 0x13, 0x00, 0x11] >>> 8) &&& 0xFF = 0x03 ∧
    crc16_modbus [] = 0xFFFF ∧
    (∀ (data : List Nat) (b : Nat),
      crc16_modbus (data ++ [b]) =
        crcRound^[8] ((data.foldl crcByte 0xFFFF) ^^^ b) &&& 0xFFFF) := by
  refine ⟨by decide, by decide, by decide, by decide, ?_⟩
  intro data b
  simp [crc16_modbus, List.foldl_append, crcByte]

/-- C8 counterexample: with an unreadable source and caller default 200,
`load_soc` returns 200, which is not in [0, 100]; the claim that the
result lies in [0, 100] for every caller-supplied default fails. -/
theorem C8_counterexample :
    load_soc none 200 = 200 ∧ ¬ load_soc none 200 ≤ 100 := by
  constructor
  · rfl
  · decide

/-- C8 (amended): any successfully parsed value is clamped into [0, 100];
any parse or access failure returns the caller-supplied default unchanged
instead of propagating the failure, so the result lies in [0, 100]
whenever the default does. -/
theorem C8_load_soc_amended (parsed : Option Int) (default v : Int) :
    (parsed = some v →
      0 ≤ load_soc parsed default ∧ load_soc parsed default ≤ 100) ∧
    (parsed = none → load_soc parsed default = default) ∧
    (0 ≤ default → default ≤ 100 →
      0 ≤ load_soc parsed default ∧ load_soc parsed default ≤ 100) := by
  refine ⟨?_, ?_, ?_⟩
  · rintro rfl
    simp only [load_soc]
    exact ⟨le_max_left _ _, max_le (by norm_num) (min_le_left _ _)⟩
  · rintro rfl
    rfl
  · intro h0 h100
    cases parsed with
    | none => exact ⟨h0, h100⟩
    | some w =>
        simp only [load_soc]
        exact ⟨le_max_left _ _, max_le (by norm_num) (min_le_left _ _)⟩

theorem C8_witness :
    (0 ≤ load_soc (some 250) 53 ∧ load_soc (some 250) 53 ≤ 100) ∧
    load_soc none 53 = 53 :=
  ⟨(C8_load_soc_amended (some 250) 53 250).1 rfl,
   (C8_load_soc_amended none 53 0).2.1 rfl⟩

/-- C9: handling any frame returns the backing register store unchanged
(the live-value patch for addresses 0x0015/0x0018 is applied only to the
copy made in `patchRegs`), and the startup store has length 39 for every
default SOC. -/
theorem C9_store_unchanged (slave soc d : Nat) (pkt : List Nat) :
    (∀ base : List Nat, (handle_frame slave base soc pkt).2 = base) ∧
    (baseInit d).length = 39 := by
  constructor
  · intro base
    simp only [handle_frame]
    split_ifs <;> rfl
  · simp [baseInit]

end EG4

namespace EG4

lemma handle_frame_short {slave soc : Nat} {base pkt : List Nat}
    (h : pkt.length < 8) : handle_frame slave base soc pkt = (none, base) := by
  simp only [handle_frame]
  rw [if_pos h]

lemma handle_frame_badcrc {slave soc : Nat} {base pkt : List Nat}
    (hlen : 8 ≤ pkt.length)
    (h : pkt.getD (pkt.length - 2) 0 ||| (pkt.getD (pkt.length - 1) 0 <<< 8) ≠
      crc16_modbus (pkt.take (pkt.length - 2))) :
    handle_frame slave base soc pkt = (none, base) := by
  simp only [handle_frame]
  rw [if_neg (by omega), if_pos (fun he => h he.symm)]

lemma handle_frame_othersid {slave soc : Nat} {base pkt : List Nat}
    (hlen : 8 ≤ pkt.length)
    (hcrc : pkt.getD (pkt.length - 2) 0 ||| (pkt.getD (pkt.length - 1) 0 <<< 8) =
      crc16_modbus (pkt.take (pkt.length - 2)))
    (h : pkt.getD 0 0 ≠ slave &&& 0xFF) :
    handle_frame slave base soc pkt = (none, base) := by
  simp only [handle_frame]
  rw [if_neg (by omega),
    if_neg (by simp only [ne_eq, Decidable.not_not]; exact hcrc.symm), if_pos h]

lemma handle_frame_valid {slave soc : Nat} {base pkt : List Nat}
    (hlen : 8 ≤ pkt.length)
    (hcrc : pkt.getD (pkt.length - 2) 0 ||| (pkt.getD (pkt.length - 1) 0 <<< 8) =
      crc16_modbus (pkt.take (pkt.length - 2)))
    (hsid : pkt.getD 0 0 = slave &&& 0xFF) :
    handle_frame slave base soc pkt =
      (if pkt.getD 1 0 ≠ 0x03 then
        (some (withCrc [pkt.getD 0 0, pkt.getD 1 0 ||| 0x80, 0x01]), base)
      else if ((pkt.getD 2 0 <<< 8) ||| pkt.getD 3 0) +
          ((pkt.getD 4 0 <<< 8) ||| pkt.getD 5 0) > base.length then
        (some (withCrc [pkt.getD 0 0, 0x83, 0x02]), base)
      else
        (some (withCrc ([pkt.getD 0 0, 0x03,
            (regs_to_bytes (patchRegs base ((pkt.getD 2 0 <<< 8) ||| pkt.getD 3 0)
              ((pkt.getD 4 0 <<< 8) ||| pkt.getD 5 0) soc)).length] ++
          regs_to_bytes (patchRegs base ((pkt.getD 2 0 <<< 8) ||| pkt.getD 3 0)
            ((pkt.getD 4 0 <<< 8) ||| pkt.getD 5 0) soc))), base)) := by
  simp only [handle_frame]
  rw [if_neg (by omega),
    if_neg (by simp only [ne_eq, Decidable.not_not]; exact hcrc.symm),
    if_neg (by simp only [ne_eq, Decidable.not_not]; exact hsid)]

/-- C5: a validated frame (length at least 8, matching CRC trailer,
matching slave id) whose function code is anything other than 0x03 gets
exactly the 5-byte exception frame `[slave, func | 0x80, 0x01]` followed
by its freshly computed CRC, low byte first; the response's function byte
always has its high bit set, and the exception code is 1. -/
theorem C5_illegal_function (slave soc : Nat) (base pkt : List Nat)
    (hlen : 8 ≤ pkt.length)
    (hcrc : pkt.getD (pkt.length - 2) 0 ||| (pkt.getD (pkt.length - 1) 0 <<< 8) =
      crc16_modbus (pkt.take (pkt.length - 2)))
    (hsid : pkt.getD 0 0 = slave &&& 0xFF)
    (hfunc : pkt.getD 1 0 ≠ 0x03) :
    (handle_frame slave base soc pkt).1 =
      some ([pkt.getD 0 0, pkt.getD 1 0 ||| 0x80, 0x01] ++
        [crc16_modbus [pkt.getD 0 0, pkt.getD 1 0 ||| 0x80, 0x01] &&& 0xFF,
         (crc16_modbus [pkt.getD 0 0, pkt.getD 1 0 ||| 0x80, 0x01] >>> 8) &&& 0xFF]) ∧
    (withCrc [pkt.getD 0 0, pkt.getD 1 0 ||| 0x80, 0x01]).length = 5 ∧
    Nat.testBit (pkt.getD 1 0 ||| 0x80) 7 = true := by
  refine ⟨?_, ?_, ?_⟩
  · rw [handle_frame_valid hlen hcrc hsid, if_pos hfunc]
    rfl
  · simp [withCrc]
  · simp only [Nat.testBit_or]
    have : Nat.testBit 0x80 7 = true := by decide
    simp [this]

set_option maxRecDepth 10000 in
theorem C5_witness :
    (handle_frame 1 (baseInit 53) 53 [0x01, 0x06, 0x00, 0x13, 0x00, 0x11, 0xB8, 0x03]).1 =
      some ([0x01, 0x86, 0x01] ++
        [crc16_modbus [0x01, 0x86, 0x01] &&& 0xFF,
         (crc16_modbus [0x01, 0x86, 0x01] >>> 8) &&& 0xFF]) :=
  (C5_illegal_function 1 53 (baseInit 53)
    [0x01, 0x06, 0x00, 0x13, 0x00, 0x11, 0xB8, 0x03]
    (by decide) (by decide) (by decide) (by decide)).1

end EG4

namespace EG4

/-- C4: for a validated 0x03 request, `start + count` equal to the
register-space length succeeds with a normal read response, while
`start + count` exceeding it (in particular length + 1) yields exactly
the exception frame `[slave, 0x83, 0x02]` (illegal data address)
followed by its CRC, low byte first. -/
theorem C4_boundary (slave soc start count : Nat) (base pkt : List Nat)
    (hlen : 8 ≤ pkt.length)
    (hcrc : pkt.getD (pkt.length - 2) 0 ||| (pkt.getD (pkt.length - 1) 0 <<< 8) =
      crc16_modbus (pkt.take (pkt.length - 2)))
    (hsid : pkt.getD 0 0 = slave &&& 0xFF)
    (hfunc : pkt.getD 1 0 = 0x03)
    (hstart : start = (pkt.getD 2 0 <<< 8) ||| pkt.getD 3 0)
    (hcount : count = (pkt.getD 4 0 <<< 8) ||| pkt.getD 5 0) :
    (start + count = base.length →
      (handle_frame slave base soc pkt).1 =
        some (withCrc ([pkt.getD 0 0, 0x03,
            (regs_to_bytes (patchRegs base start count soc)).length] ++
          regs_to_bytes (patchRegs base start count soc)))) ∧
    (base.length < start + count →
      (handle_frame slave base soc pkt).1 =
        some ([pkt.getD 0 0, 0x83, 0x02] ++
          [crc16_modbus [pkt.getD 0 0, 0x83, 0x02] &&& 0xFF,
           (crc16_modbus [pkt.getD 0 0, 0x83, 0x02] >>> 8) &&& 0xFF])) := by
  subst hstart hcount
  rw [handle_frame_valid hlen hcrc hsid]
  rw [if_neg (by simp only [ne_eq, Decidable.not_not]; exact hfunc)]
  constructor
  · intro h
    rw [if_neg (by omega)]
  · intro h
    rw [if_pos (by omega)]
    rfl

set_option maxRecDepth 10000 in
theorem C4_witness :
    (handle_frame 1 (baseInit 53) 53 [0x01, 0x03, 0x00, 0x16, 0x00, 0x11, 0x64, 0x02]).1 =
      some (withCrc ([0x01, 0x03,
          (regs_to_bytes (patchRegs (baseInit 53) 0x16 0x11 53)).length] ++
        regs_to_bytes (patchRegs (baseInit 53) 0x16 0x11 53))) ∧
    (handle_frame 1 (baseInit 53) 53 [0x01, 0x03, 0x00, 0x17, 0x00, 0x11, 0x35, 0xC2]).1 =
      some ([0x01, 0x83, 0x02] ++
        [crc16_modbus [0x01, 0x83, 0x02] &&& 0xFF,
         (crc16_modbus [0x01, 0x83, 0x02] >>> 8) &&& 0xFF]) := by
  constructor
  · exact (C4_boundary 1 53 0x16 0x11 (baseInit 53)
      [0x01, 0x03, 0x00, 0x16, 0x00, 0x11, 0x64, 0x02]
      (by decide) (by decide) (by decide) (by decide) (by decide) (by decide)).1
      (by decide)
  · exact (C4_boundary 1 53 0x17 0x11 (baseInit 53)
      [0x01, 0x03, 0x00, 0x17, 0x00, 0x11, 0x35, 0xC2]
      (by decide) (by decide) (by decide) (by decide) (by decide) (by decide)).2
      (by decide)

/-- C6: no response bytes are written for a frame shorter than 8 bytes,
for a frame whose recomputed CRC differs from its trailer, or for a frame
addressed to a different slave id; every frame passing those three checks
produces exactly one response. -/
theorem C6_silent_paths (slave soc : Nat) (base pkt : List Nat) :
    (pkt.length < 8 → (handle_frame slave base soc pkt).1 = none) ∧
    (8 ≤ pkt.length →
      pkt.getD (pkt.length - 2) 0 ||| (pkt.getD (pkt.length - 1) 0 <<< 8) ≠
        crc16_modbus (pkt.take (pkt.length - 2)) →
      (handle_frame slave base soc pkt).1 = none) ∧
    (8 ≤ pkt.length →
      pkt.getD (pkt.length - 2) 0 ||| (pkt.getD (pkt.length - 1) 0 <<< 8) =
        crc16_modbus (pkt.take (pkt.length - 2)) →
      pkt.getD 0 0 ≠ slave &&& 0xFF →
      (handle_frame slave base soc pkt).1 = none) ∧
    (8 ≤ pkt.length →
      pkt.getD (pkt.length - 2) 0 ||| (pkt.getD (pkt.length - 1) 0 <<< 8) =
        crc16_modbus (pkt.take (pkt.length - 2)) →
      pkt.getD 0 0 = slave &&& 0xFF →
      ((handle_frame slave base soc pkt).1).isSome = true) := by
  refine ⟨?_, ?_, ?_, ?_⟩
  · intro h
    rw [handle_frame_short h]
  · intro hlen h
    rw [handle_frame_badcrc hlen h]
  · intro hlen hcrc h
    rw [handle_frame_othersid hlen hcrc h]
  · intro hlen hcrc hsid
    rw [handle_frame_valid hlen hcrc hsid]
    split
    · rfl
    · split <;> rfl

set_option maxRecDepth 10000 in
theorem C6_witness :
    (handle_frame 1 (baseInit 53) 53 [0x01, 0x03, 0x00]).1 = none ∧
    (handle_frame 1 (baseInit 53) 53 [0x01, 0x03, 0x00, 0x13, 0x00, 0x11, 0x00, 0x00]).1 = none ∧
    (handle_frame 1 (baseInit 53) 53 [0x02, 0x03, 0x00, 0x13, 0x00, 0x11, 0x74, 0x30]).1 = none ∧
    ((handle_frame 1 (baseInit 53) 53 [0x01, 0x03, 0x00, 0x13, 0x00, 0x11, 0x74, 0x03]).1).isSome = true := by
  refine ⟨?_, ?_, ?_, ?_⟩
  · exact (C6_silent_paths 1 53 (baseInit 53) [0x01, 0x03, 0x00]).1 (by decide)
  · exact (C6_silent_paths 1 53 (baseInit 53)
      [0x01, 0x03, 0x00, 0x13, 0x00, 0x11, 0x00, 0x00]).2.1 (by decide) (by decide)
  · exact (C6_silent_paths 1 53 (baseInit 53)
      [0x02, 0x03, 0x00, 0x13, 0x00, 0x11, 0x74, 0x30]).2.2.1
      (by decide) (by decide) (by decide)
  · exact (C6_silent_paths 1 53 (baseInit 53)
      [0x01, 0x03, 0x00, 0x13, 0x00, 0x11, 0x74, 0x03]).2.2.2
      (by decide) (by decide) (by decide)
end EG4

namespace EG4

lemma regs_to_bytes_foldl (regs out : List Nat) :
    regs.foldl (fun acc r => acc ++ [(r >>> 8) &&& 0xFF, r &&& 0xFF]) out =
      out ++ regs_to_bytes regs := by
  induction regs generalizing out with
  | nil => simp [regs_to_bytes]
  | cons r rs ih =>
      show List.foldl _ (out ++ [_, _]) rs = _
      rw [ih]
      have : regs_to_bytes (r :: rs) =
          List.foldl (fun acc x => acc ++ [(x >>> 8) &&& 0xFF, x &&& 0xFF]) ([] ++ [_, _]) rs := rfl
      rw [this, ih]
      simp

lemma regs_to_bytes_cons (r : Nat) (rs : List Nat) :
    regs_to_bytes (r :: rs) =
      ((r >>> 8) &&& 0xFF) :: (r &&& 0xFF) :: regs_to_bytes rs := by
  show List.foldl _ ([] ++ [_, _]) rs = _
  rw [regs_to_bytes_foldl]
  simp

lemma regs_to_bytes_length (rs : List Nat) :
    (regs_to_bytes rs).length = 2 * rs.length := by
  induction rs with
  | nil => rfl
  | cons r rest ih =>
      rw [regs_to_bytes_cons]
      simp only [List.length_cons]
      omega

lemma byte_split_recombine {r : Nat} (h : r < 65536) :
    ((r >>> 8) &&& 0xFF) * 256 + (r &&& 0xFF) = r := by
  have h1 : r >>> 8 = r / 256 := by
    rw [Nat.shiftRight_eq_div_pow]
  have h2 : r &&& 0xFF = r % 256 := by
    have := Nat.and_pow_two_sub_one_eq_mod r 8
    norm_num at this
    exact this
  have h3 : (r >>> 8) &&& 0xFF = r / 256 := by
    rw [h1]
    have he : (0xFF : Nat) = 2 ^ 8 - 1 := by norm_num
    rw [he]
    exact Nat.and_pow_two_sub_one_of_lt_two_pow (by omega)
  rw [h2, h3]
  omega

lemma bytesToRegs_regs_to_bytes {rs : List Nat} (h : ∀ r ∈ rs, r < 65536) :
    bytesToRegs (regs_to_bytes rs) = rs := by
  induction rs with
  | nil => rfl
  | cons r rest ih =>
      rw [regs_to_bytes_cons]
      show (((r >>> 8) &&& 0xFF) * 256 + (r &&& 0xFF)) :: bytesToRegs (regs_to_bytes rest) = _
      rw [byte_split_recombine (h r (by simp)), ih (fun x hx => h x (by simp [hx]))]

lemma getD_set (l : List Nat) (k i v : Nat) (hk : k < l.length) :
    (l.set k v).getD i 0 = if k = i then v else l.getD i 0 := by
  simp only [List.getD_eq_getElem?_getD, List.getElem?_set]
  by_cases he : k = i
  · subst he
    simp [hk]
  · simp [he]

lemma patchRegs_length {base : List Nat} {start count soc : Nat}
    (h : start + count ≤ base.length) :
    (patchRegs base start count soc).length = count := by
  unfold patchRegs
  split <;> split <;>
    simp only [List.length_set, List.length_take, List.length_drop] <;> omega

lemma patchRegs_getD {base : List Nat} {start count soc i : Nat}
    (hi : i < count) (h : start + count ≤ base.length) :
    (patchRegs base start count soc).getD i 0 =
      if start + i = 0x15 ∨ start + i = 0x18 then soc
      else base.getD (start + i) 0 := by
  have hlen0 : ((base.drop start).take count).length = count := by
    simp only [List.length_take, List.length_drop]
    omega
  have hreg0 : ((base.drop start).take count).getD i 0 = base.getD (start + i) 0 := by
    simp only [List.getD_eq_getElem?_getD]
    rw [List.getElem?_take_of_lt hi, List.getElem?_drop]
  have hstep : patchRegs base start count soc =
      if start ≤ 0x18 ∧ 0x18 < start + count then
        (if start ≤ 0x15 ∧ 0x15 < start + count then
          ((base.drop start).take count).set (0x15 - start) soc
        else (base.drop start).take count).set (0x18 - start) soc
      else
        (if start ≤ 0x15 ∧ 0x15 < start + count then
          ((base.drop start).take count).set (0x15 - start) soc
        else (base.drop start).take count) := rfl
  rw [hstep]
  by_cases c18 : start ≤ 0x18 ∧ 0x18 < start + count
  · rw [if_pos c18]
    by_cases c15 : start ≤ 0x15 ∧ 0x15 < start + count
    · rw [if_pos c15]
      rw [getD_set _ _ _ _ (by rw [List.length_set, hlen0]; omega)]
      rw [getD_set _ _ _ _ (by rw [hlen0]; omega)]
      by_cases h18 : start + i = 0x18
      · rw [if_pos (by omega), if_pos (Or.inr h18)]
      · by_cases h15 : start + i = 0x15
        · rw [if_neg (by omega), if_pos (by omega), if_pos (Or.inl h15)]
        · rw [if_neg (by omega), if_neg (by omega), hreg0, if_neg (by omega)]
    · rw [if_neg c15]
      rw [getD_set _ _ _ _ (by rw [hlen0]; omega)]
      by_cases h18 : start + i = 0x18
      · rw [if_pos (by omega), if_pos (Or.inr h18)]
      · rw [if_neg (by omega), hreg0, if_neg (by omega)]
  · rw [if_neg c18]
    by_cases c15 : start ≤ 0x15 ∧ 0x15 < start + count
    · rw [if_pos c15]
      rw [getD_set _ _ _ _ (by rw [hlen0]; omega)]
      by_cases h15 : start + i = 0x15
      · rw [if_pos (by omega), if_pos (Or.inl h15)]
      · rw [if_neg (by omega), hreg0, if_neg (by omega)]
    · rw [if_neg c15, hreg0, if_neg (by omega)]

lemma patchRegs_lt {base : List Nat} {start count soc : Nat}
    (hb : ∀ r ∈ base, r < 65536) (hsoc : soc < 65536) :
    ∀ r ∈ patchRegs base start count soc, r < 65536 := by
  have base_mem : ∀ r ∈ (base.drop start).take count, r < 65536 :=
    fun r hr => hb r (List.mem_of_mem_drop (List.mem_of_mem_take hr))
  intro r hr
  unfold patchRegs at hr
  split at hr <;> split at hr
  · rcases List.mem_or_eq_of_mem_set hr with hr' | hr'
    · rcases List.mem_or_eq_of_mem_set hr' with hr2 | hr2
      · exact base_mem r hr2
      · omega
    · omega
  · rcases List.mem_or_eq_of_mem_set hr with hr' | hr'
    · exact base_mem r hr'
    · omega
  · rcases List.mem_or_eq_of_mem_set hr with hr' | hr'
    · exact base_mem r hr'
    · omega
  · exact base_mem r hr

end EG4

namespace EG4

/-- C2: for every valid 8-byte 0x03 request addressed to the slave with
`start + count` within the 39-register space, exactly one response
`[slave, 0x03, byte_count] ++ payload ++ [crc_lo, crc_hi]` is emitted
whose CRC trailer is the CRC-16 of all preceding response bytes;
`byte_count = 2 * count`; and decoding the payload as `count` big-endian
16-bit values reproduces the store's values at `start..start+count-1`,
except that the live-mirror addresses 0x0015 and 0x0018 decode to the
live SOC value instead of the stored default. -/
theorem C2_roundtrip (slave soc start count : Nat) (base pkt : List Nat)
    (hblen : base.length = 39) (hb : ∀ r ∈ base, r < 65536) (hsoc : soc < 65536)
    (hplen : pkt.length = 8)
    (hcrc : pkt.getD 6 0 ||| (pkt.getD 7 0 <<< 8) = crc16_modbus (pkt.take 6))
    (hsid : pkt.getD 0 0 = slave &&& 0xFF)
    (hfunc : pkt.getD 1 0 = 0x03)
    (hstart : start = (pkt.getD 2 0 <<< 8) ||| pkt.getD 3 0)
    (hcount : count = (pkt.getD 4 0 <<< 8) ||| pkt.getD 5 0)
    (hrange : start + count ≤ 39) :
    (handle_frame slave base soc pkt).1 =
      some (([pkt.getD 0 0, 0x03,
          (regs_to_bytes (patchRegs base start count soc)).length] ++
          regs_to_bytes (patchRegs base start count soc)) ++
        [crc16_modbus ([pkt.getD 0 0, 0x03,
            (regs_to_bytes (patchRegs base start count soc)).length] ++
            regs_to_bytes (patchRegs base start count soc)) &&& 0xFF,
         (crc16_modbus ([pkt.getD 0 0, 0x03,
            (regs_to_bytes (patchRegs base start count soc)).length] ++
            regs_to_bytes (patchRegs base start count soc)) >>> 8) &&& 0xFF]) ∧
    (regs_to_bytes (patchRegs base start count soc)).length = 2 * count ∧
    bytesToRegs (regs_to_bytes (patchRegs base start count soc)) =
      patchRegs base start count soc ∧
    (∀ i, i < count →
      (bytesToRegs (regs_to_bytes (patchRegs base start count soc))).getD i 0 =
        if start + i = 0x15 ∨ start + i = 0x18 then soc
        else base.getD (start + i) 0) := by
  have hlen8 : 8 ≤ pkt.length := by omega
  have hcrc' : pkt.getD (pkt.length - 2) 0 ||| (pkt.getD (pkt.length - 1) 0 <<< 8) =
      crc16_modbus (pkt.take (pkt.length - 2)) := by
    rw [hplen]
    exact hcrc
  have hrange' : start + count ≤ base.length := by omega
  refine ⟨?_, ?_, ?_, ?_⟩
  · rw [handle_frame_valid hlen8 hcrc' hsid]
    rw [if_neg (by simp only [ne_eq, Decidable.not_not]; exact hfunc)]
    rw [if_neg (by omega)]
    rw [← hstart, ← hcount]
    rfl
  · rw [regs_to_bytes_length, patchRegs_length hrange']
  · exact bytesToRegs_regs_to_bytes (patchRegs_lt hb hsoc)
  · intro i hic
    rw [bytesToRegs_regs_to_bytes (patchRegs_lt hb hsoc)]
    exact patchRegs_getD hic hrange'

set_option maxRecDepth 20000 in
theorem C2_witness :
    (handle_frame 1 (baseInit 53) 53
        [0x01, 0x03, 0x00, 0x13, 0x00, 0x11, 0x74, 0x03]).1 =
      some (([0x01, 0x03,
          (regs_to_bytes (patchRegs (baseInit 53) 0x13 0x11 53)).length] ++
          regs_to_bytes (patchRegs (baseInit 53) 0x13 0x11 53)) ++
        [crc16_modbus ([0x01, 0x03,
            (regs_to_bytes (patchRegs (baseInit 53) 0x13 0x11 53)).length] ++
            regs_to_bytes (patchRegs (baseInit 53) 0x13 0x11 53)) &&& 0xFF,
         (crc16_modbus ([0x01, 0x03,
            (regs_to_bytes (patchRegs (baseInit 53) 0x13 0x11 53)).length] ++
            regs_to_bytes (patchRegs (baseInit 53) 0x13 0x11 53)) >>> 8) &&& 0xFF]) ∧
    (regs_to_bytes (patchRegs (baseInit 53) 0x13 0x11 53)).length = 2 * 0x11 ∧
    (bytesToRegs (regs_to_bytes (patchRegs (baseInit 53) 0x13 0x11 53))).getD 2 0 = 53 := by
  have h := C2_roundtrip 1 53 0x13 0x11 (baseInit 53)
    [0x01, 0x03, 0x00, 0x13, 0x00, 0x11, 0x74, 0x03]
    (by decide) (by decide) (by decide) (by decide) (by decide) (by decide)
    (by decide) (by decide) (by decide) (by decide)
  refine ⟨h.1, h.2.1, ?_⟩
  rw [h.2.2.2 2 (by decide)]
  decide

end EG4

namespace EG4

lemma xor_aux1 (A y : Nat) : A ^^^ (y ^^^ A) = y := by
  rw [Nat.xor_comm y A, ← Nat.xor_assoc, Nat.xor_self, Nat.zero_xor]

lemma xor_xor_cancel (x A y : Nat) : (x ^^^ A) ^^^ (y ^^^ A) = x ^^^ y := by
  rw [Nat.xor_assoc, xor_aux1]

lemma xor_swap_right (x y A : Nat) : (x ^^^ y) ^^^ A = (x ^^^ A) ^^^ y := by
  rw [Nat.xor_assoc, Nat.xor_comm y A, ← Nat.xor_assoc]

lemma shiftRight_one_xor (a b : Nat) : (a ^^^ b) >>> 1 = a >>> 1 ^^^ b >>> 1 := by
  have h : ∀ x : Nat, x >>> 1 = x / 2 := fun x => by
    rw [Nat.shiftRight_eq_div_pow, pow_one]
  rw [h, h, h, Nat.xor_div_two]

lemma crcRound_xor (a b : Nat) : crcRound (a ^^^ b) = crcRound a ^^^ crcRound b := by
  unfold crcRound
  simp only [Nat.and_one_is_mod]
  rcases Nat.mod_two_eq_zero_or_one a with ha | ha <;>
    rcases Nat.mod_two_eq_zero_or_one b with hb | hb
  · rw [if_neg (by simp [Nat.xor_mod_two_eq_one, ha, hb]; omega),
      if_neg (by omega), if_neg (by omega), shiftRight_one_xor]
  · rw [if_pos (by simp [Nat.xor_mod_two_eq_one, ha, hb]; omega),
      if_neg (by omega), if_pos hb, shiftRight_one_xor, Nat.xor_assoc]
  · rw [if_pos (by simp [Nat.xor_mod_two_eq_one, ha, hb]; omega),
      if_pos ha, if_neg (by omega), shiftRight_one_xor, xor_swap_right]
  · rw [if_neg (by simp [Nat.xor_mod_two_eq_one, ha, hb]; omega),
      if_pos ha, if_pos hb, shiftRight_one_xor, xor_xor_cancel]

lemma crcRound_iter_xor (k a b : Nat) :
    crcRound^[k] (a ^^^ b) = crcRound^[k] a ^^^ crcRound^[k] b := by
  induction k generalizing a b with
  | zero => rfl
  | succ n ih =>
      rw [Function.iterate_succ_apply, Function.iterate_succ_apply,
        Function.iterate_succ_apply, crcRound_xor, ih]

lemma crcByte_xor_right (c b e : Nat) :
    crcByte c (b ^^^ e) = crcByte c b ^^^ crcRound^[8] e := by
  unfold crcByte
  rw [← Nat.xor_assoc, crcRound_iter_xor]

lemma crcByte_xor_left (c d b : Nat) :
    crcByte (c ^^^ d) b = crcByte c b ^^^ crcRound^[8] d := by
  unfold crcByte
  rw [xor_swap_right, crcRound_iter_xor]

lemma foldl_crcByte_xor (rest : List Nat) :
    ∀ c d : Nat, rest.foldl crcByte (c ^^^ d) =
      rest.foldl crcByte c ^^^ crcRound^[8 * rest.length] d := by
  induction rest with
  | nil => intro c d; simp
  | cons b bs ih =>
      intro c d
      simp only [List.foldl_cons]
      rw [crcByte_xor_left, ih, ← Function.iterate_add_apply]
      have h : 8 * bs.length + 8 = 8 * (b :: bs).length := by
        simp [List.length_cons]
        ring
      rw [h]

lemma crcRound_lt {c : Nat} (h : c < 65536) : crcRound c < 65536 := by
  have h1 : c >>> 1 = c / 2 := by rw [Nat.shiftRight_eq_div_pow, pow_one]
  unfold crcRound
  split
  · have h2 : c >>> 1 < 65536 := by omega
    have h3 : (0xA001 : Nat) < 65536 := by norm_num
    calc (c >>> 1) ^^^ 0xA001 < 2 ^ 16 := by
          apply Nat.xor_lt_two_pow
          · norm_num
            omega
          · norm_num
      _ = 65536 := by norm_num
  · omega

lemma crcRound_ne_zero {c : Nat} (hlt : c < 65536) (h : c ≠ 0) : crcRound c ≠ 0 := by
  have h1 : c >>> 1 = c / 2 := by rw [Nat.shiftRight_eq_div_pow, pow_one]
  have hmod := Nat.and_one_is_mod c
  unfold crcRound
  split
  · intro he
    have h2 : c >>> 1 = 0xA001 := Nat.xor_eq_zero.mp he
    omega
  · rename_i heven
    omega

lemma crcRound_iter_ne_zero (k : Nat) :
    ∀ {d : Nat}, d < 65536 → d ≠ 0 →
      crcRound^[k] d ≠ 0 ∧ crcRound^[k] d < 65536 := by
  induction k with
  | zero => intro d hlt h; exact ⟨h, hlt⟩
  | succ n ih =>
      intro d hlt h
      rw [Function.iterate_succ_apply]
      exact ih (crcRound_lt hlt) (crcRound_ne_zero hlt h)

lemma crc_fold_flip (pre post : List Nat) (b e : Nat) :
    List.foldl crcByte 0xFFFF (pre ++ (b ^^^ e) :: post) =
      List.foldl crcByte 0xFFFF (pre ++ b :: post) ^^^
        crcRound^[8 * post.length + 8] e := by
  rw [List.foldl_append, List.foldl_append]
  simp only [List.foldl_cons]
  rw [crcByte_xor_right, foldl_crcByte_xor, ← Function.iterate_add_apply]

lemma crc16_set_ne {body : List Nat} {i j : Nat} (hi : i < body.length) (hj : j < 8) :
    crc16_modbus (body.set i (body.getD i 0 ^^^ 2 ^ j)) ≠ crc16_modbus body := by
  have hgd : body.getD i 0 = body.get ⟨i, hi⟩ := by
    simp [List.getD_eq_getElem?_getD, List.getElem?_eq_getElem hi]
  have hbody : body.take i ++ body.getD i 0 :: body.drop (i + 1) = body := by
    conv_rhs => rw [← List.take_append_drop i body]
    rw [List.drop_eq_getElem_cons hi, hgd]
    rfl
  have hset : body.set i (body.getD i 0 ^^^ 2 ^ j) =
      body.take i ++ (body.getD i 0 ^^^ 2 ^ j) :: body.drop (i + 1) :=
    List.set_eq_take_cons_drop _ hi
  have he1 : (2 : Nat) ^ j ≠ 0 := Nat.pos_iff_ne_zero.mp (Nat.pos_pow_of_pos j (by norm_num))
  have he2 : (2 : Nat) ^ j < 65536 := by
    calc (2 : Nat) ^ j ≤ 2 ^ 7 := Nat.pow_le_pow_right (by norm_num) (by omega)
      _ < 65536 := by norm_num
  have hD := crcRound_iter_ne_zero (8 * (body.drop (i + 1)).length + 8) he2 he1
  have hDmask : crcRound^[8 * (body.drop (i + 1)).length + 8] (2 ^ j) &&& 0xFFFF =
      crcRound^[8 * (body.drop (i + 1)).length + 8] (2 ^ j) := by
    have he : (0xFFFF : Nat) = 2 ^ 16 - 1 := by norm_num
    rw [he]
    exact Nat.and_pow_two_sub_one_of_lt_two_pow (by exact_mod_cast hD.2)
  have hc1 : crc16_modbus (body.set i (body.getD i 0 ^^^ 2 ^ j)) =
      (List.foldl crcByte 0xFFFF
          (body.take i ++ body.getD i 0 :: body.drop (i + 1)) &&& 0xFFFF) ^^^
        crcRound^[8 * (body.drop (i + 1)).length + 8] (2 ^ j) := by
    unfold crc16_modbus
    rw [hset, crc_fold_flip, Nat.and_xor_distrib_right, hDmask]
  have hc2 : crc16_modbus body =
      List.foldl crcByte 0xFFFF
        (body.take i ++ body.getD i 0 :: body.drop (i + 1)) &&& 0xFFFF := by
    unfold crc16_modbus
    rw [hbody]
  rw [hc1, hc2]
  intro hcontra
  have hx : (List.foldl crcByte 0xFFFF
        (body.take i ++ body.getD i 0 :: body.drop (i + 1)) &&& 0xFFFF) ^^^
      crcRound^[8 * (body.drop (i + 1)).length + 8] (2 ^ j) =
      (List.foldl crcByte 0xFFFF
        (body.take i ++ body.getD i 0 :: body.drop (i + 1)) &&& 0xFFFF) ^^^ 0 := by
    rw [Nat.xor_zero]
    exact hcontra
  exact hD.1 (Nat.xor_right_inj.mp hx)

end EG4

namespace EG4

/-- C7: flipping any single bit of any single byte of a message changes
its CRC-16 deterministically (the CRC of the flipped message never equals
the CRC of the original), so a frame whose trailer matched before
tampering fails the CRC check afterwards and no response is emitted. -/
theorem C7_bit_flip_detected :
    (∀ (body : List Nat) (i j : Nat), i < body.length → j < 8 →
      crc16_modbus (body.set i (body.getD i 0 ^^^ 2 ^ j)) ≠ crc16_modbus body) ∧
    (∀ (slave soc : Nat) (base pkt : List Nat) (i j : Nat),
      8 ≤ pkt.length → i < pkt.length - 2 → j < 8 →
      pkt.getD (pkt.length - 2) 0 ||| (pkt.getD (pkt.length - 1) 0 <<< 8) =
        crc16_modbus (pkt.take (pkt.length - 2)) →
      (handle_frame slave base soc
        (pkt.set i (pkt.getD i 0 ^^^ 2 ^ j))).1 = none) := by
  constructor
  · intro body i j hi hj
    exact crc16_set_ne hi hj
  · intro slave soc base pkt i j hlen hi hj hcrc
    have hipkt : i < pkt.length := by omega
    have hlen' : (pkt.set i (pkt.getD i 0 ^^^ 2 ^ j)).length = pkt.length :=
      List.length_set ..
    have htake : (pkt.set i (pkt.getD i 0 ^^^ 2 ^ j)).take (pkt.length - 2) =
        (pkt.take (pkt.length - 2)).set i (pkt.getD i 0 ^^^ 2 ^ j) :=
      List.set_take
    have hgd : (pkt.take (pkt.length - 2)).getD i 0 = pkt.getD i 0 := by
      simp only [List.getD_eq_getElem?_getD]
      rw [List.getElem?_take_of_lt hi]
    have htrail2 : (pkt.set i (pkt.getD i 0 ^^^ 2 ^ j)).getD (pkt.length - 2) 0 =
        pkt.getD (pkt.length - 2) 0 := by
      simp only [List.getD_eq_getElem?_getD]
      rw [List.getElem?_set_ne (by omega)]
    have htrail1 : (pkt.set i (pkt.getD i 0 ^^^ 2 ^ j)).getD (pkt.length - 1) 0 =
        pkt.getD (pkt.length - 1) 0 := by
      simp only [List.getD_eq_getElem?_getD]
      rw [List.getElem?_set_ne (by omega)]
    have hitake : i < (pkt.take (pkt.length - 2)).length := by
      rw [List.length_take]
      omega
    have hne : crc16_modbus ((pkt.take (pkt.length - 2)).set i
        (pkt.getD i 0 ^^^ 2 ^ j)) ≠ crc16_modbus (pkt.take (pkt.length - 2)) := by
      have := @crc16_set_ne (pkt.take (pkt.length - 2)) i j hitake hj
      rw [hgd] at this
      exact this
    rw [handle_frame_badcrc (by omega)]
    rw [hlen', htrail1, htrail2, htake, hcrc]
    exact fun he => hne he.symm
end EG4

namespace EG4

set_option maxRecDepth 20000 in
theorem C7_witness :
    crc16_modbus ([0x01, 0x03, 0x00, 0x13, 0x00, 0x11].set 0
        ([0x01, 0x03, 0x00, 0x13, 0x00, 0x11].getD 0 0 ^^^ 2 ^ 0)) ≠
      crc16_modbus [0x01, 0x03, 0x00, 0x13, 0x00, 0x11] ∧
    (handle_frame 1 (baseInit 53) 53
      ([0x01, 0x03, 0x00, 0x13, 0x00, 0x11, 0x74, 0x03].set 0
        ([0x01, 0x03, 0x00, 0x13, 0x00, 0x11, 0x74, 0x03].getD 0 0 ^^^ 2 ^ 0))).1 = none :=
  ⟨C7_bit_flip_detected.1 [0x01, 0x03, 0x00, 0x13, 0x00, 0x11] 0 0 (by decide) (by decide),
   C7_bit_flip_detected.2 1 53 (baseInit 53)
     [0x01, 0x03, 0x00, 0x13, 0x00, 0x11, 0x74, 0x03] 0 0
     (by decide) (by decide) (by decide) (by decide)⟩

end EG4
